import Mathlib

/-!
Verification development for the focus / outside-interaction subsystem of the
headless UI component library (React variant in `utils/focus-management.ts`,
`hooks/use-is-top-layer.ts`, `hooks/use-outside-click.ts`,
`components/focus-trap/focus-trap.tsx`; Vue variant in its `utils/focus-management.ts`).

The DOM boundary is shallowly embedded: an element is a record of exactly the
attributes the code consults (tag, `disabled`, `contentEditable`, the `tabindex`
attribute, the reflected `tabIndex` IDL property, the `data-autofocus` marker,
connectivity), plus a `canFocus` flag modelling whether a `.focus()` call is
honoured by the host (the code itself re-checks `document.activeElement` after
every `.focus()` attempt, so the host may veto). Document state is the active
element plus logs of the `.focus()` / `.select()` calls issued. A container is
given by its descendant list in document order (`querySelectorAll` returns the
matching descendants in document order; `Node.contains` is membership in the
descendant list).
-/

namespace HeadlessUI

/-- HTML tag names distinguished by the focusable-elements selector
(`a[href]`, `area[href]`, `button:not([disabled])`, `iframe`,
`input:not([disabled])`, `select:not([disabled])`, `textarea:not([disabled])`);
`span` and `other` stand for tags the selector never matches by tag name. -/
inductive Tag
  | a | area | button | iframe | input | select | textarea | span | other
deriving DecidableEq

/-- A DOM element, reduced to the attributes the focus subsystem consults.
`id` models reference identity; `tabIndex` is the reflected IDL property
(`HTMLElement.tabIndex`), `tabindexAttr` the literal `tabindex` attribute.
`canFocus` tells whether a `.focus()` call actually moves focus here (the
host/browser can veto, e.g. for hidden elements); `isConnected` and
`rootContains` model `Element.isConnected` and `getRootNode().contains(el)`. -/
structure Elem where
  id : Nat
  tag : Tag := Tag.other
  href : Bool := false
  disabled : Bool := false
  contentEditable : Bool := false
  tabindexAttr : Option Int := none
  autofocusAttr : Bool := false
  tabIndex : Int := -1
  canFocus : Bool := true
  isConnected : Bool := true
  rootContains : Bool := true
  isBody : Bool := false
  docPos : Nat := 0
deriving DecidableEq

/-- One alternative of `focusableSelector` matches: the element is content
editable, carries a `tabindex` attribute, is a link/area with `href`, a
non-disabled form control, or an iframe. -/
def matchesBaseFocusable (e : Elem) : Bool :=
  e.contentEditable
  || e.tabindexAttr.isSome
  || (e.tag == Tag.a && e.href)
  || (e.tag == Tag.area && e.href)
  || (e.tag == Tag.button && !e.disabled)
  || e.tag == Tag.iframe
  || (e.tag == Tag.input && !e.disabled)
  || (e.tag == Tag.select && !e.disabled)
  || (e.tag == Tag.textarea && !e.disabled)

/-- Production build of `focusableSelector`: every alternative is suffixed with
`:not([tabindex='-1'])`, so an element matches iff some base alternative
matches and its `tabindex` attribute is not the literal `-1`. -/
def matchesFocusableSelector (e : Elem) : Bool :=
  matchesBaseFocusable e && e.tabindexAttr != some (-1)

/-- The `autoFocusableSelector`: `[data-autofocus]:not([tabindex='-1'])`. -/
def matchesAutoFocusSelector (e : Elem) : Bool :=
  e.autofocusAttr && e.tabindexAttr != some (-1)

/-- `Number.MAX_SAFE_INTEGER`, the sort key the code substitutes for a zero
(or JavaScript-falsy) `tabIndex`. -/
def maxSafeInteger : Int := 9007199254740991

/-- Sort key of the comparator `(a, z) => Math.sign((a.tabIndex || MAX) - (z.tabIndex || MAX))`:
`a.tabIndex || Number.MAX_SAFE_INTEGER` (`0` is falsy in JavaScript, so an
effective tab index of `0` is replaced by `MAX_SAFE_INTEGER`). -/
def tabKey (e : Elem) : Int :=
  if e.tabIndex = 0 then maxSafeInteger else e.tabIndex

/-- The total preorder the tab-index comparator induces: `a` may stay before `z`
iff `tabKey a ≤ tabKey z`. -/
def tabLE (a z : Elem) : Prop := tabKey a ≤ tabKey z

instance : DecidableRel tabLE := fun a z =>
  decidable_of_iff (tabKey a ≤ tabKey z) Iff.rfl

instance : IsTotal Elem tabLE := ⟨fun a z => Int.le_total (tabKey a) (tabKey z)⟩

instance : IsTrans Elem tabLE := ⟨fun _ _ _ => Int.le_trans⟩

/-- Document-order comparison used by `sortByDomNode` (via
`compareDocumentPosition`): for attached distinct nodes it is the strict order
of document positions, and the comparator returns `0` only for identical nodes,
so a stable sort by `docPos` reproduces it. -/
def domLE (a z : Elem) : Prop := a.docPos ≤ z.docPos

instance : DecidableRel domLE := fun a z =>
  decidable_of_iff (a.docPos ≤ z.docPos) Iff.rfl

instance : IsTotal Elem domLE := ⟨fun a z => Nat.le_total a.docPos z.docPos⟩

instance : IsTrans Elem domLE := ⟨fun _ _ _ => Nat.le_trans⟩

/-- `getFocusableElements(container)`: the descendants matching
`focusableSelector` in document order, then sorted by the tab-index comparator.
`Array.prototype.sort` is stable and the comparator is induced by the key
`tabKey`, so the result is the (unique) stable sort by `tabKey`, which
insertion sort computes. -/
def getFocusableElements (descendants : List Elem) : List Elem :=
  List.insertionSort tabLE (descendants.filter matchesFocusableSelector)

/-- `getAutoFocusableElements(container)`: same, restricted to
`[data-autofocus]` elements. -/
def getAutoFocusableElements (descendants : List Elem) : List Elem :=
  List.insertionSort tabLE (descendants.filter matchesAutoFocusSelector)

/-- `sortByDomNode` on plain elements: stable sort by document order. -/
def sortByDomNode (l : List Elem) : List Elem :=
  List.insertionSort domLE l

/-- `FocusableMode` of `isFocusableElement`. -/
inductive FocusableMode
  | Strict
  | Loose
deriving DecidableEq

/-- `isFocusableElement(element, mode)`. The `Loose` walk over
`element.parentElement` chains is embedded by passing the proper-ancestor chain
(closest first) explicitly. The function returns `false` for the document body
before consulting the mode. -/
def isFocusableElement (e : Elem) (ancestors : List Elem) (mode : FocusableMode) : Bool :=
  if e.isBody then false
  else
    match mode with
    | FocusableMode.Strict => matchesFocusableSelector e
    | FocusableMode.Loose => (e :: ancestors).any matchesFocusableSelector

/- The `Focus` flag enum (bitmask) of the React variant; the Vue variant's enum
has the same values but stops at `NoScroll`. -/
namespace Focus

def First : Nat := 1

def Previous : Nat := 2

def Next : Nat := 4

def Last : Nat := 8

def WrapAround : Nat := 16

def NoScroll : Nat := 32

def AutoFocus : Nat := 64

end Focus

/-- `FocusResult` enum, identical in both variants. -/
inductive FocusResult
  | Error
  | Overflow
  | Success
  | Underflow
deriving DecidableEq

/-- The document state the focus mover observes and mutates: the active element
(`document.activeElement`, `none` for "null"), plus logs of every `.focus()`
and `.select()` call issued (by element id, in order). -/
structure DomState where
  active : Option Elem := none
  focusCalls : List Nat := []
  selectCalls : List Nat := []
deriving DecidableEq

/-- One `element.focus(options)` call: always logged; moves the active element
only when the host honours the request (`canFocus`). -/
def tryFocus (s : DomState) (e : Elem) : DomState :=
  { s with
      active := if e.canFocus then some e else s.active
      focusCalls := s.focusCalls ++ [e.id] }

/-- `focusElement(element)`: `element?.focus({ preventScroll: true })`. -/
def focusElement : Option Elem → DomState → DomState
  | none, s => s
  | some e, s => tryFocus s e

/-- `isSelectableElement`: the element matches `'textarea,input'`
(`element?.matches?.(...) ?? false`). -/
def isSelectableElement : Option Elem → Bool
  | some e => e.tag == Tag.textarea || e.tag == Tag.input
  | none => false

/-- Strict equality `next === ownerDocument.activeElement` at the loop exit:
`next` may be `undefined` (out-of-bounds index) and `activeElement` may be
`null`; `undefined === null` is `false` under `===`, so the comparison is true
only when both sides are the same element. -/
def sameElement : Option Elem → Option Elem → Bool
  | some a, some b => a == b
  | _, _ => false

/-- The text-selection epilogue of `focusIn`: when the move was `Next`/`Previous`
and the focused element is a text input, its content is selected
(`next.select()` — logged, no effect on the active element). -/
def finishSelect (focus : Nat) (next : Option Elem) (s : DomState) : DomState :=
  if focus &&& (Focus.Next ||| Focus.Previous) != 0 && isSelectableElement next then
    match next with
    | some e => { s with selectCalls := s.selectCalls ++ [e.id] }
    | none => s
  else s

/-- The `do { ... } while (next !== ownerDocument.activeElement)` loop of
`focusIn`, identical in the React and Vue variants. The loop body runs at most
`elements.length` times before the guard `offset >= total || offset + total <= 0`
returns `Error` (the `offset` steps by `direction = ±1` from `0`), so fuel
`elements.length + 1` makes the fuel-exhaustion branch unreachable.
JavaScript's `%` on the wrap-around index is truncating remainder (`Int.tmod`). -/
def focusLoop (elements : List Elem) (focus : Nat) (startIndex direction : Int) :
    Nat → Int → DomState → FocusResult × DomState
  | 0, _, s => (FocusResult.Error, s)
  | fuel + 1, offset, s =>
    let total : Int := elements.length
    if offset ≥ total ∨ offset + total ≤ 0 then (FocusResult.Error, s)
    else
      let rawIdx := startIndex + offset
      let idxRes : Except FocusResult Int :=
        if focus &&& Focus.WrapAround != 0 then Except.ok ((rawIdx + total).tmod total)
        else if rawIdx < 0 then Except.error FocusResult.Underflow
        else if rawIdx ≥ total then Except.error FocusResult.Overflow
        else Except.ok rawIdx
      match idxRes with
      | Except.error r => (r, s)
      | Except.ok nextIdx =>
        let next := elements[nextIdx.toNat]?
        let s1 := match next with
          | some e => tryFocus s e
          | none => s
        if sameElement next s1.active then
          (FocusResult.Success, finishSelect focus next s1)
        else
          focusLoop elements focus startIndex direction fuel (offset + direction) s1

/-- The `container` argument of `focusIn`: an explicit element array, or a
single container element represented by its descendant list in document order. -/
inductive ContainerInput
  | list (elements : List Elem)
  | container (descendants : List Elem)

/-- The option object of `focusIn` (over plain elements; the React variant
additionally unwraps `MutableRefObject`s in `skipElements`, which coincides with
this on plain elements). -/
structure FocusOptions where
  sorted : Bool := true
  relativeTo : Option Elem := none
  skipElements : List Elem := []

/-- JavaScript `elements.indexOf(relativeTo)`: `-1` when `relativeTo` is
`null` or not in the list. -/
def idxOfJS (elements : List Elem) : Option Elem → Int
  | none => -1
  | some e => if e ∈ elements then (elements.indexOf e : Int) else -1

/-- Element-list resolution of the React `focusIn`: an explicit array is sorted
into document order unless `sorted: false`; a single container is resolved via
the focusable-element index, restricted to `[data-autofocus]` when the
directive carries `Focus.AutoFocus`. -/
def resolveListReact (container : ContainerInput) (focus : Nat) (sorted : Bool) : List Elem :=
  match container with
  | ContainerInput.list els => if sorted then sortByDomNode els else els
  | ContainerInput.container descendants =>
    if focus &&& Focus.AutoFocus != 0 then getAutoFocusableElements descendants
    else getFocusableElements descendants

/-- Element-list resolution of the Vue `focusIn`: identical except that a single
container is always resolved via `getFocusableElements` (the Vue `Focus` enum
has no `AutoFocus` member). -/
def resolveListVue (container : ContainerInput) (sorted : Bool) : List Elem :=
  match container with
  | ContainerInput.list els => if sorted then sortByDomNode els else els
  | ContainerInput.container descendants => getFocusableElements descendants

/-- The `skipElements` filter of `focusIn`, applied only when the skip list is
non-empty and more than one element remains. -/
def applySkip (skipElements : List Elem) (elements : List Elem) : List Elem :=
  if skipElements.length > 0 && elements.length > 1 then
    elements.filter (fun e => !(skipElements.contains e))
  else elements

/-- The error message of the two `throw new Error(...)` sites in `focusIn`. -/
def missingFocusMessage : String :=
  "Missing Focus.First, Focus.Previous, Focus.Next or Focus.Last"

/-- Direction resolution of `focusIn`: `First`/`Next` step `+1`,
`Previous`/`Last` step `-1`, otherwise a synchronous `throw`. -/
def resolveDirection (focus : Nat) : Except String Int :=
  if focus &&& (Focus.First ||| Focus.Next) != 0 then Except.ok 1
  else if focus &&& (Focus.Previous ||| Focus.Last) != 0 then Except.ok (-1)
  else Except.error missingFocusMessage

/-- Start-index resolution of `focusIn` (`Math.max(0, indexOf(relativeTo))`
treats an absent `relativeTo` as index `0`). -/
def resolveStartIndex (focus : Nat) (elements : List Elem) (relativeTo : Option Elem) :
    Except String Int :=
  if focus &&& Focus.First != 0 then Except.ok 0
  else if focus &&& Focus.Previous != 0 then
    Except.ok (max 0 (idxOfJS elements relativeTo) - 1)
  else if focus &&& Focus.Next != 0 then
    Except.ok (max 0 (idxOfJS elements relativeTo) + 1)
  else if focus &&& Focus.Last != 0 then Except.ok ((elements.length : Int) - 1)
  else Except.error missingFocusMessage

/-- The React `focusIn(container, focus, { sorted, relativeTo, skipElements })`.
`relativeTo` defaults to `ownerDocument.activeElement`. A thrown `Error` is the
`Except.error` case; otherwise the returned `FocusResult` is paired with the
resulting document state. -/
def focusInReact (container : ContainerInput) (focus : Nat) (opts : FocusOptions)
    (s : DomState) : Except String (FocusResult × DomState) := do
  let elements := applySkip opts.skipElements (resolveListReact container focus opts.sorted)
  let relativeTo := match opts.relativeTo with
    | some r => some r
    | none => s.active
  let direction ← resolveDirection focus
  let startIndex ← resolveStartIndex focus elements relativeTo
  pure (focusLoop elements focus startIndex direction (elements.length + 1) 0 s)

/-- The Vue `focusIn`: identical to the React one line for line, except for the
single-container resolution (no `Focus.AutoFocus` branch) and the
`?? document` fallback on `ownerDocument` (invisible in this model). -/
def focusInVue (container : ContainerInput) (focus : Nat) (opts : FocusOptions)
    (s : DomState) : Except String (FocusResult × DomState) := do
  let elements := applySkip opts.skipElements (resolveListVue container opts.sorted)
  let relativeTo := match opts.relativeTo with
    | some r => some r
    | none => s.active
  let direction ← resolveDirection focus
  let startIndex ← resolveStartIndex focus elements relativeTo
  pure (focusLoop elements focus startIndex direction (elements.length + 1) 0 s)

/-- `focusFrom`-style repeated invocation used to express "repeating the move":
run the React `focusIn` on an explicit list with default options (so
`relativeTo` is the current active element) and keep the resulting document
state (a thrown directive error keeps the state unchanged). -/
def moveNext (elements : List Elem) (focus : Nat) (s : DomState) : DomState :=
  match focusInReact (ContainerInput.list elements) focus { sorted := false } s with
  | Except.ok (_, s1) => s1
  | Except.error _ => s

/- Layer Registry (`use-is-top-layer.ts`). The per-scope store holds the list of
registered opaque instance identifiers (React `useId` strings, modelled as
`Nat`), in registration order. -/

/-- The `ADD` action of a scope's hierarchy store: append unless present. -/
def addId (l : List Nat) (id : Nat) : List Nat :=
  if id ∈ l then l else l ++ [id]

/-- The `REMOVE` action: `indexOf` then `splice(idx, 1)` — remove the first
occurrence, no-op when absent. -/
def removeId (l : List Nat) (id : Nat) : List Nat :=
  if id ∈ l then l.eraseIdx (l.indexOf id) else l

/-- `useIsTopLayer(enabled, scope)` evaluated against the scope's current
hierarchy: `false` when disabled; otherwise the caller's index (an id not yet
registered is treated as if appended last) must be the last index. -/
def isTopLayer (enabled : Bool) (id : Nat) (hierarchy : List Nat) : Bool :=
  if !enabled then false
  else
    let idx : Int := if id ∈ hierarchy then (hierarchy.indexOf id : Int) else -1
    let len : Int := hierarchy.length
    let (idx, len) := if idx == -1 then ((len : Int), len + 1) else (idx, len)
    idx == len - 1

/- Outside-Interaction Detector (`use-outside-click.ts`), the `handleOutsideClick`
resolution step shared by the click / touch / blur listeners. -/

/-- A caller-supplied container: its root element and the set of elements it
contains in the sense of `Node.contains` (the root included). -/
structure ContainerM where
  root : Elem
  members : List Elem
deriving DecidableEq

/-- The event fields `handleOutsideClick` consults. -/
structure OutsideEvent where
  defaultPrevented : Bool := false
  composed : Bool := false
  composedPath : List Elem := []

/-- The resolved interaction target: the element plus its `parentElement`
chain (closest first), needed for the `Loose` focusability walk. -/
structure OutsideTarget where
  el : Elem
  ancestors : List Elem := []

/-- What `handleOutsideClick` did: whether it called `event.preventDefault()`,
and the target the callback fired with (`none` when it aborted). -/
structure OutsideResult where
  prevented : Bool
  fired : Option Elem
deriving DecidableEq

/-- `handleOutsideClick(event, resolveTarget)`: abort on an already-handled
event, a null or detached target, or a target inside (or on the composed path
of) any resolved container; otherwise prevent the default action exactly when
the target is not Loose-focusable yet reports a `tabIndex` other than `-1`,
then fire the callback with the target. -/
def handleOutsideClick (containersList : List (Option ContainerM)) (ev : OutsideEvent)
    (target : Option OutsideTarget) : OutsideResult :=
  if ev.defaultPrevented then ⟨false, none⟩
  else
    match target with
    | none => ⟨false, none⟩
    | some t =>
      if !t.el.rootContains then ⟨false, none⟩
      else if !t.el.isConnected then ⟨false, none⟩
      else if containersList.any (fun c =>
          match c with
          | none => false
          | some c =>
            c.members.contains t.el
            || (ev.composed && ev.composedPath.contains c.root)) then
        ⟨false, none⟩
      else
        let prevented :=
          !isFocusableElement t.el t.ancestors FocusableMode.Loose && t.el.tabIndex != -1
        ⟨prevented, some t.el⟩

/- Focus Trap (`focus-trap.tsx`): the deferred initial-focus step of
`useInitialFocus`. -/

/- The `FocusTrapFeatures` flag enum. -/
namespace FocusTrapFeatures

def InitialFocus : Nat := 1

def TabLock : Nat := 2

def FocusLock : Nat := 4

def RestoreFocus : Nat := 8

def AutoFocus : Nat := 16

end FocusTrapFeatures

/-- Outcome of the deferred initial-focus step: the document state, whether the
"no focusable elements" diagnostic was emitted (`console.warn`), and the value
of the `previousActiveElement` ref afterwards. -/
structure InitOutcome where
  s : DomState
  warned : Bool
  prev : Option Elem
deriving DecidableEq

/-- The `focusIn(containerElement, ...)` calls inside the step. Both call sites
pass a directive containing `Focus.First`, so the directive-validation throw is
unreachable; the `Except.error` arm is mapped to `(Error, s)` only for
totality. -/
def runFocusIn (descendants : List Elem) (focus : Nat) (s : DomState) :
    FocusResult × DomState :=
  match focusInReact (ContainerInput.container descendants) focus {} s with
  | Except.ok rs => rs
  | Except.error _ => (FocusResult.Error, s)

/-- The microtask body of `useInitialFocus` once the trap is enabled and the
container (given by its descendant list) is mounted. `initialFocus` and
`fallback` are the `initialFocus` / `initialFocusFallback` refs, `prev0` the
`previousActiveElement` ref going in. Mirrors the source: when an explicit
initial-focus element is set, the containment check on the active element is
skipped; when the chosen `focusIn` succeeds (or the fallback takes focus) the
step returns before updating `previousActiveElement`. -/
def initialFocusStep (features : Nat) (descendants : List Elem)
    (initialFocus fallback : Option Elem) (prev0 : Option Elem) (s : DomState) : InitOutcome :=
  let activeElement := s.active
  match initialFocus with
  | some f =>
    if activeElement = some f then ⟨s, false, activeElement⟩
    else
      let s1 := focusElement (some f) s
      ⟨s1, false, s1.active⟩
  | none =>
    if (match activeElement with
        | some a => decide (a ∈ descendants)
        | none => false) then
      ⟨s, false, activeElement⟩
    else
      let step :=
        if features &&& FocusTrapFeatures.AutoFocus != 0 then
          runFocusIn descendants (Focus.First ||| Focus.AutoFocus) s
        else
          runFocusIn descendants Focus.First s
      if step.1 ≠ FocusResult.Error then ⟨step.2, false, prev0⟩
      else
        match fallback with
        | some fb =>
          let s2 := focusElement (some fb) step.2
          if s2.active = some fb then ⟨s2, false, prev0⟩
          else ⟨s2, true, s2.active⟩
        | none => ⟨step.2, true, step.2.active⟩

/- Formalisations of spec sentences (used only to state refutations; these are
written from the spec's words, not from the source). -/

/-- Spec wording (Focusable Element Index ordering): the key under which "absent
tab index sorts after any explicit non-negative tab index (including an
explicit tab index of 0)" — an explicit non-negative attribute sorts by its
value, anything else sorts last. -/
def claimTabKey (e : Elem) : Int :=
  match e.tabindexAttr with
  | some k => if 0 ≤ k then k else maxSafeInteger
  | none => maxSafeInteger

/-- The ordering the spec sentence asserts for `getFocusableElements`. -/
def claimTabLE (a z : Elem) : Prop := claimTabKey a ≤ claimTabKey z

instance : DecidableRel claimTabLE := fun a z =>
  decidable_of_iff (claimTabKey a ≤ claimTabKey z) Iff.rfl

/-- Spec wording (outside-click): "has an explicit non-negative tab index". -/
def hasExplicitNonNegTabindex (e : Elem) : Bool :=
  match e.tabindexAttr with
  | some k => decide (0 ≤ k)
  | none => false

/-- Spec wording (outside-click): the condition under which the claim says the
default action is prevented — target not Loose-focusable and without an
explicit non-negative tab index. -/
def claimPrevent (e : Elem) (ancestors : List Elem) : Bool :=
  !isFocusableElement e ancestors FocusableMode.Loose && !hasExplicitNonNegTabindex e

/- Concrete elements used by witnesses and counterexamples. -/

/-- A plain focusable button (reflected `tabIndex` 0, no attributes). -/
def plainButton (n : Nat) : Elem := { id := n, tag := Tag.button, tabIndex := 0 }

/-- A non-focusable plain `span`: matches no selector alternative, reflected
`tabIndex` is `-1`. -/
def plainSpan (n : Nat) : Elem := { id := n, tag := Tag.span }

/-- A disabled button: matches no selector alternative (the `button` alternative
requires `:not([disabled])`), but its reflected `tabIndex` IDL value is `0`. -/
def disabledButton (n : Nat) : Elem := { id := n, tag := Tag.button, disabled := true, tabIndex := 0 }

/-- An element whose only claim to focusability is an explicit `tabindex="0"`. -/
def explicitZero (n : Nat) : Elem := { id := n, tabindexAttr := some 0, tabIndex := 0 }

/- ======================== theorems ======================== -/

/-- `x ||| y = 0` forces both operands to be zero. -/
theorem or_eq_zero_parts {x y : Nat} (h : x ||| y = 0) : x = 0 ∧ y = 0 := by
  have hb : ∀ i, x.testBit i = false ∧ y.testBit i = false := by
    intro i
    have hz := congrArg (fun t => Nat.testBit t i) h
    simpa [Nat.testBit_or] using hz
  constructor <;> apply Nat.eq_of_testBit_eq <;> intro i <;>
    simp [(hb i).1, (hb i).2]

/-- A set bit in `a &&& c` survives widening the mask with `b`. -/
theorem and_or_ne_zero_right {a b c : Nat} (h : a &&& c ≠ 0) : a &&& (b ||| c) ≠ 0 := by
  intro hz
  rw [Nat.and_or_distrib_left] at hz
  exact h (or_eq_zero_parts hz).2

/-- A set bit in `a &&& b` survives widening the mask with `c`. -/
theorem and_or_ne_zero_left {a b c : Nat} (h : a &&& b ≠ 0) : a &&& (b ||| c) ≠ 0 := by
  intro hz
  rw [Nat.and_or_distrib_left] at hz
  exact h (or_eq_zero_parts hz).1

/-- Splitting the four-flag movement mask of `focusIn`. -/
theorem movement_mask_split (f : Nat) :
    f &&& (Focus.First ||| Focus.Previous ||| Focus.Next ||| Focus.Last) =
      (f &&& (Focus.First ||| Focus.Next)) ||| (f &&& (Focus.Previous ||| Focus.Last)) := by
  rw [← Nat.and_or_distrib_left]
  have : (Focus.First ||| Focus.Previous ||| Focus.Next ||| Focus.Last)
      = ((Focus.First ||| Focus.Next) ||| (Focus.Previous ||| Focus.Last)) := by decide
  rw [this]

/-- An empty skip list leaves the element list unchanged. -/
theorem applySkip_nil (l : List Elem) : applySkip [] l = l := by
  simp [applySkip]

/-- The text-selection epilogue never moves focus. -/
theorem finishSelect_active (focus : Nat) (next : Option Elem) (s : DomState) :
    (finishSelect focus next s).active = s.active := by
  unfold finishSelect
  split
  · cases next <;> rfl
  · rfl

/-- For a registered id, `isTopLayer` holds exactly when the id is the last
entry of its scope's hierarchy. -/
theorem isTopLayer_iff_getLast {h : List Nat} {id : Nat} (hnd : h.Nodup) (hm : id ∈ h) :
    isTopLayer true id h = true ↔ h.getLast? = some id := by
  have hne : h ≠ [] := List.ne_nil_of_mem hm
  have hlen : 1 ≤ h.length := List.length_pos.mpr hne
  have hidx : h.indexOf id < h.length := List.indexOf_lt_length.mpr hm
  have hbeq : (((h.indexOf id : Int)) == (-1 : Int)) = false := by
    simp only [beq_eq_false_iff_ne, ne_eq]
    omega
  rw [isTopLayer]
  simp only [Bool.not_true, Bool.false_eq_true, if_false, if_pos hm, hbeq, if_false,
    beq_iff_eq]
  rw [List.getLast?_eq_getLast_of_ne_nil hne]
  have hlast : h.getLast hne = h.get ⟨h.length - 1, by omega⟩ := by
    rw [List.get_eq_getElem]
    exact List.getLast_eq_getElem h hne
  constructor
  · intro hix
    have hix' : h.indexOf id = h.length - 1 := by omega
    have h2 := List.getElem_indexOf (a := id) (l := h) hidx
    have h3 : h.get ⟨h.length - 1, by omega⟩ = id := by
      have hfin : (⟨h.length - 1, by omega⟩ : Fin h.length) = ⟨h.indexOf id, hidx⟩ :=
        Fin.mk_eq_mk.mpr (by omega)
      rw [hfin, List.get_eq_getElem]
      exact h2
    rw [hlast, h3]
  · intro hl
    have hid : id = h.getLast hne := ((Option.some.injEq _ _).mp hl).symm
    have hix' : h.indexOf id = h.length - 1 := by
      rw [hid, hlast, List.get_eq_getElem]
      exact List.indexOf_getElem hnd (h.length - 1) (by omega)
    omega

/-- C2: within one scope, the most recently registered still-enabled instance —
the last entry of the scope's sequence — is the unique top layer among
registered enabled instances; removing the last entry promotes the
next-most-recent; a disabled instance reports `false`; an enabled instance not
yet in the sequence is treated as appended last and reports `true`. -/
theorem C2_top_layer :
    (∀ (h : List Nat) (id : Nat), h.Nodup → id ∈ h →
      (isTopLayer true id h = true ↔ h.getLast? = some id)) ∧
    (∀ (h : List Nat) (a b : Nat), h.Nodup → a ∈ h → b ∈ h →
      isTopLayer true a h = true → isTopLayer true b h = true → a = b) ∧
    (∀ (l : List Nat) (x y : Nat), (l ++ [x, y]).Nodup →
      isTopLayer true x (removeId (l ++ [x, y]) y) = true) ∧
    (∀ (h : List Nat) (id : Nat), isTopLayer false id h = false) ∧
    (∀ (h : List Nat) (id : Nat), id ∉ h → isTopLayer true id h = true) := by
  refine ⟨fun h id hnd hm => isTopLayer_iff_getLast hnd hm, ?_, ?_, ?_, ?_⟩
  · intro h a b hnd ha hb hta htb
    have h1 := (isTopLayer_iff_getLast hnd ha).mp hta
    have h2 := (isTopLayer_iff_getLast hnd hb).mp htb
    rw [h1] at h2
    exact (Option.some.injEq _ _).mp h2
  · intro l x y hnd
    have hassoc : l ++ [x, y] = (l ++ [x]) ++ [y] := by simp
    have hny : y ∉ l ++ [x] := by
      rw [hassoc, List.nodup_append] at hnd
      intro hy
      exact hnd.2.2 hy (List.mem_singleton_self y)
    have hrem : removeId (l ++ [x, y]) y = l ++ [x] := by
      rw [removeId, if_pos (by simp)]
      rw [hassoc, List.indexOf_append_of_not_mem hny]
      simp only [List.indexOf_cons_self, Nat.add_zero]
      rw [List.eraseIdx_append_of_length_le (Nat.le_refl _)]
      simp
    rw [hrem]
    have hnd' : (l ++ [x]).Nodup := by
      rw [hassoc] at hnd
      exact (List.nodup_append.mp hnd).1
    exact (isTopLayer_iff_getLast hnd' (by simp)).mpr (List.getLast?_concat l)
  · intro h id
    simp [isTopLayer]
  · intro h id hnm
    rw [isTopLayer]
    simp only [Bool.not_true, Bool.false_eq_true, if_false, if_neg hnm]
    simp

/-- C6 (amended): `focusIn` throws the missing-flag error exactly when the
directive contains none of First/Previous/Next/Last; any directive containing
at least one of them — exactly one or not — validates and returns normally. -/
theorem C6_movement_validation (c : ContainerInput) (focus : Nat) (opts : FocusOptions)
    (s : DomState) :
    (focus &&& (Focus.First ||| Focus.Previous ||| Focus.Next ||| Focus.Last) = 0 →
      focusInReact c focus opts s = Except.error missingFocusMessage) ∧
    (focus &&& (Focus.First ||| Focus.Previous ||| Focus.Next ||| Focus.Last) ≠ 0 →
      ∃ out, focusInReact c focus opts s = Except.ok out) := by
  constructor
  · intro hz
    rw [movement_mask_split] at hz
    obtain ⟨h5, h10⟩ := or_eq_zero_parts hz
    have hdir : resolveDirection focus = Except.error missingFocusMessage := by
      rw [resolveDirection, if_neg (by simp [h5]), if_neg (by simp [h10])]
    simp [focusInReact, hdir, bind, Except.bind]
  · intro hnz
    rw [movement_mask_split] at hnz
    obtain ⟨d, hd⟩ : ∃ d, resolveDirection focus = Except.ok d := by
      rw [resolveDirection]
      split_ifs with h1 h2
      · exact ⟨_, rfl⟩
      · exact ⟨_, rfl⟩
      · exfalso
        apply hnz
        have e5 : focus &&& (Focus.First ||| Focus.Next) = 0 := by simpa using h1
        have e10 : focus &&& (Focus.Previous ||| Focus.Last) = 0 := by simpa using h2
        simp [e5, e10]
    obtain ⟨v, hsi⟩ : ∃ v, resolveStartIndex focus
        (applySkip opts.skipElements (resolveListReact c focus opts.sorted))
        (match opts.relativeTo with | some r => some r | none => s.active) = Except.ok v := by
      rw [resolveStartIndex]
      split_ifs with g1 g2 g3 g4
      · exact ⟨_, rfl⟩
      · exact ⟨_, rfl⟩
      · exact ⟨_, rfl⟩
      · exact ⟨_, rfl⟩
      · exfalso
        apply hnz
        have e1 : focus &&& Focus.First = 0 := by simpa using g1
        have e2 : focus &&& Focus.Previous = 0 := by simpa using g2
        have e3 : focus &&& Focus.Next = 0 := by simpa using g3
        have e4 : focus &&& Focus.Last = 0 := by simpa using g4
        rw [Nat.and_or_distrib_left, Nat.and_or_distrib_left, e1, e3, e2, e4]
        simp
    have heq : focusInReact c focus opts s = Except.ok
        (focusLoop (applySkip opts.skipElements (resolveListReact c focus opts.sorted)) focus v d
          ((applySkip opts.skipElements (resolveListReact c focus opts.sorted)).length + 1) 0 s) := by
      simp [focusInReact, hd, hsi, bind, Except.bind, pure, Except.pure]
    exact ⟨_, heq⟩

/-- Witness for C6 at concrete directives: `WrapAround` alone throws; `First`
alone validates. -/
theorem C6_movement_validation_witness :
    focusInReact (ContainerInput.list []) 16 {} {} = Except.error missingFocusMessage ∧
    ∃ out, focusInReact (ContainerInput.list []) 1 {} {} = Except.ok out :=
  ⟨(C6_movement_validation (ContainerInput.list []) 16 {} {}).1 (by decide),
   (C6_movement_validation (ContainerInput.list []) 1 {} {}).2 (by decide)⟩

/-- Counterexample to C6 as stated: the directive `Focus.First ||| Focus.Last`
(= 9) contains two of the four movement flags — not exactly one — yet
`focusIn` does not fail validation; it runs and returns `Success`. -/
theorem C6_cex :
    ((if (9 : Nat) &&& Focus.First ≠ 0 then 1 else 0)
      + (if (9 : Nat) &&& Focus.Previous ≠ 0 then 1 else 0)
      + (if (9 : Nat) &&& Focus.Next ≠ 0 then 1 else 0)
      + (if (9 : Nat) &&& Focus.Last ≠ 0 then 1 else 0) = 2) ∧
    focusInReact (ContainerInput.list [plainButton 61]) 9 {} {} =
      Except.ok (FocusResult.Success,
        { active := some (plainButton 61), focusCalls := [61], selectCalls := [] }) := by
  constructor
  · decide
  · rfl

/-- C10: with any directive containing at least one movement flag, `focusIn` on
an empty candidate list — an empty explicit list, or a container with no
descendants matching the focusable (or auto-focus) selector — returns `Error`
without throwing and leaves the document state untouched (so no focus call is
attempted and the active element is unchanged). -/
theorem C10_empty_list (c : ContainerInput) (focus : Nat) (opts : FocusOptions) (s : DomState)
    (hflag : focus &&& (Focus.First ||| Focus.Previous ||| Focus.Next ||| Focus.Last) ≠ 0)
    (hempty : c = ContainerInput.list [] ∨ ∃ d, c = ContainerInput.container d ∧
      d.filter matchesFocusableSelector = [] ∧ d.filter matchesAutoFocusSelector = []) :
    focusInReact c focus opts s = Except.ok (FocusResult.Error, s) := by
  have hres : resolveListReact c focus opts.sorted = [] := by
    rcases hempty with rfl | ⟨d, rfl, hf, ha⟩
    · rw [resolveListReact]
      split <;> rfl
    · rw [resolveListReact]
      split
      · rw [getAutoFocusableElements, ha]
        rfl
      · rw [getFocusableElements, hf]
        rfl
  have helem : applySkip opts.skipElements (resolveListReact c focus opts.sorted) = [] := by
    rw [hres, applySkip]
    simp
  rw [movement_mask_split] at hflag
  obtain ⟨d, hd⟩ : ∃ d, resolveDirection focus = Except.ok d := by
    rw [resolveDirection]
    split_ifs with h1 h2
    · exact ⟨_, rfl⟩
    · exact ⟨_, rfl⟩
    · exfalso
      apply hflag
      have e5 : focus &&& (Focus.First ||| Focus.Next) = 0 := by simpa using h1
      have e10 : focus &&& (Focus.Previous ||| Focus.Last) = 0 := by simpa using h2
      simp [e5, e10]
  obtain ⟨v, hsi⟩ : ∃ v, resolveStartIndex focus
      (applySkip opts.skipElements (resolveListReact c focus opts.sorted))
      (match opts.relativeTo with | some r => some r | none => s.active) = Except.ok v := by
    rw [resolveStartIndex]
    split_ifs with g1 g2 g3 g4
    · exact ⟨_, rfl⟩
    · exact ⟨_, rfl⟩
    · exact ⟨_, rfl⟩
    · exact ⟨_, rfl⟩
    · exfalso
      apply hflag
      have e1 : focus &&& Focus.First = 0 := by simpa using g1
      have e2 : focus &&& Focus.Previous = 0 := by simpa using g2
      have e3 : focus &&& Focus.Next = 0 := by simpa using g3
      have e4 : focus &&& Focus.Last = 0 := by simpa using g4
      rw [Nat.and_or_distrib_left, Nat.and_or_distrib_left, e1, e3, e2, e4]
      simp
  have hloop : focusLoop [] focus v d 1 0 s = (FocusResult.Error, s) := by
    rw [focusLoop]
    rw [if_pos]
    simp
  rw [helem] at hsi
  simp only [focusInReact, helem, hd, hsi, bind, Except.bind, pure, Except.pure, List.length_nil]
  simp [hloop]

/-- Witness for C10: `Focus.Next` on an empty explicit list. -/
theorem C10_empty_list_witness :
    focusInReact (ContainerInput.list []) Focus.Next {} { active := some (plainButton 1) } =
      Except.ok (FocusResult.Error, { active := some (plainButton 1) }) :=
  C10_empty_list (ContainerInput.list []) Focus.Next {} { active := some (plainButton 1) }
    (by decide) (Or.inl rfl)

/-- C9 (amended): the React and Vue `focusIn` implementations agree — same
thrown error or same `MovementResult` and same resulting document state, hence
the same focused element — on every common input whose directive does not
carry the React-only `Focus.AutoFocus` flag; on explicit element lists they
agree for every directive. The auto-focus-restricted container resolution
exists only in the React variant. -/
theorem C9_react_vue_equiv (c : ContainerInput) (focus : Nat) (opts : FocusOptions)
    (s : DomState)
    (h : (∃ els, c = ContainerInput.list els) ∨ focus &&& Focus.AutoFocus = 0) :
    focusInReact c focus opts s = focusInVue c focus opts s := by
  have hres : resolveListReact c focus opts.sorted = resolveListVue c opts.sorted := by
    cases c with
    | list els => rfl
    | container d =>
      rcases h with ⟨els, heq⟩ | hz
      · exact absurd heq (by simp)
      · rw [resolveListReact, resolveListVue, if_neg (by simp [hz])]
  rw [focusInReact, focusInVue, hres]

/-- Witness for C9 on a concrete explicit list. -/
theorem C9_react_vue_equiv_witness :
    focusInReact (ContainerInput.list [plainButton 5]) Focus.First {} {} =
      focusInVue (ContainerInput.list [plainButton 5]) Focus.First {} {} :=
  C9_react_vue_equiv (ContainerInput.list [plainButton 5]) Focus.First {} {}
    (Or.inl ⟨[plainButton 5], rfl⟩)

/-- Counterexample to C9 as stated: on a single container holding one focusable
button without `data-autofocus`, the directive `Focus.First ||| Focus.AutoFocus`
(= 65) makes the React variant resolve via the auto-focus index (empty, so
`Error`, no focus moved) while the Vue variant — whose `Focus` enum has no
`AutoFocus` — resolves all focusables and succeeds, focusing the button: the
two variants return different results and focus different elements. -/
theorem C9_cex :
    focusInReact (ContainerInput.container [plainButton 7]) 65 {} {} =
      Except.ok (FocusResult.Error, {}) ∧
    focusInVue (ContainerInput.container [plainButton 7]) 65 {} {} =
      Except.ok (FocusResult.Success,
        { active := some (plainButton 7), focusCalls := [7], selectCalls := [] }) := by
  constructor
  · rfl
  · rfl

/-- C5 (amended): during outside-click resolution with a connected target, an
event not already default-prevented, and the target outside every resolved
container, the callback always fires with the resolved target, and the default
action is prevented exactly when the target is not Loose-focusable yet reports
a non-negative `tabIndex` IDL value (`target.tabIndex !== -1`, e.g. a disabled
control) — not, as stated, when it lacks an explicit non-negative tab index. -/
theorem C5_outside_click (cs : List (Option ContainerM)) (ev : OutsideEvent)
    (t : OutsideTarget)
    (hdp : ev.defaultPrevented = false)
    (hroot : t.el.rootContains = true)
    (hconn : t.el.isConnected = true)
    (hout : ∀ cm : ContainerM, some cm ∈ cs →
      t.el ∉ cm.members ∧ ¬(ev.composed = true ∧ cm.root ∈ ev.composedPath)) :
    handleOutsideClick cs ev (some t) =
      { prevented := !isFocusableElement t.el t.ancestors FocusableMode.Loose
          && t.el.tabIndex != -1,
        fired := some t.el } := by
  have hany : (cs.any fun c =>
      match c with
      | none => false
      | some c => c.members.contains t.el || (ev.composed && ev.composedPath.contains c.root))
      = false := by
    rw [List.any_eq_false]
    intro c hc
    cases c with
    | none => simp
    | some cm =>
      obtain ⟨hm, hp⟩ := hout cm hc
      simp only [Bool.not_eq_true, Bool.or_eq_false_iff]
      refine ⟨by simpa using hm, ?_⟩
      cases hcomp : ev.composed with
      | false => simp [hcomp]
      | true =>
        have hnp : cm.root ∉ ev.composedPath := fun hmem => hp ⟨hcomp, hmem⟩
        simp [hcomp, hnp]
  rw [handleOutsideClick]
  rw [if_neg (by simp [hdp])]
  rw [if_neg (by simp [hroot]), if_neg (by simp [hconn]),
    if_neg (by simp only [hany]; simp)]

/-- Witness for C5: a Loose-focusable target outside all containers — callback
fires, nothing prevented. -/
theorem C5_outside_click_witness :
    handleOutsideClick [some { root := plainSpan 32, members := [plainSpan 32] }] {}
      (some { el := plainButton 31 }) =
      { prevented := false, fired := some (plainButton 31) } :=
  (C5_outside_click [some { root := plainSpan 32, members := [plainSpan 32] }] {}
      { el := plainButton 31 } rfl rfl rfl
      (fun cm hm => by
        simp only [List.mem_singleton, Option.some.injEq] at hm
        subst hm
        exact ⟨by decide, by decide⟩)).trans (by decide)

/-- Counterexample to C5 as stated: a plain `span` outside every container is
not Loose-focusable and has no explicit non-negative tab index, so the claim
demands its default action be prevented — but its reflected `tabIndex` is `-1`,
so the code fires the callback without preventing anything. -/
theorem C5_cex :
    claimPrevent (plainSpan 31) [] = true ∧
    handleOutsideClick [some { root := plainSpan 32, members := [plainSpan 32] }] {}
      (some { el := plainSpan 31 }) =
      { prevented := false, fired := some (plainSpan 31) } := by
  constructor
  · decide
  · rfl

/-- C4 (amended): the deferred initial-focus step proceeds as follows. With an
explicit initial-focus element configured it is accepted as-is only when it is
already active; otherwise it is focused directly — even when the active element
is already inside the trap — and the auto-focus / first-focusable / fallback
steps are skipped. Only with no explicit initial-focus element configured is an
active element inside the trap accepted as-is; otherwise exactly one query runs
— the auto-focus-restricted one when the `AutoFocus` feature is set (with no
fall-through to the plain first-focusable query), else the plain first-focusable
one — and on its success the step returns (without touching the
`previousActiveElement` ref). When the selected query fails, the fallback
element — if configured — is focused directly on the post-query state and, if
it actually took focus, the step returns; otherwise (fallback absent or its
focus attempt vetoed) the non-fatal diagnostic is emitted and focus stays
where the attempts left it. -/
theorem C4_initial_focus (features : Nat) (descendants : List Elem)
    (fallback prev0 : Option Elem) (s : DomState) :
    (∀ f, s.active = some f →
      initialFocusStep features descendants (some f) fallback prev0 s =
        { s := s, warned := false, prev := some f }) ∧
    (∀ a, s.active = some a → a ∈ descendants →
      initialFocusStep features descendants none fallback prev0 s =
        { s := s, warned := false, prev := some a }) ∧
    (∀ f, s.active ≠ some f →
      initialFocusStep features descendants (some f) fallback prev0 s =
        { s := tryFocus s f, warned := false, prev := (tryFocus s f).active }) ∧
    ((∀ a, s.active = some a → a ∉ descendants) →
      ∀ r1 s1,
      (if features &&& FocusTrapFeatures.AutoFocus != 0 then
          runFocusIn descendants (Focus.First ||| Focus.AutoFocus) s
        else runFocusIn descendants Focus.First s) = (r1, s1) →
      (r1 ≠ FocusResult.Error →
        initialFocusStep features descendants none fallback prev0 s =
          { s := s1, warned := false, prev := prev0 }) ∧
      (r1 = FocusResult.Error →
        (∀ fb, fallback = some fb →
          ((focusElement (some fb) s1).active = some fb →
            initialFocusStep features descendants none fallback prev0 s =
              { s := focusElement (some fb) s1, warned := false, prev := prev0 }) ∧
          ((focusElement (some fb) s1).active ≠ some fb →
            initialFocusStep features descendants none fallback prev0 s =
              { s := focusElement (some fb) s1, warned := true,
                prev := (focusElement (some fb) s1).active })) ∧
        (fallback = none →
          initialFocusStep features descendants none fallback prev0 s =
            { s := s1, warned := true, prev := s1.active }))) := by
  have hinactive : (∀ a, s.active = some a → a ∉ descendants) →
      (match s.active with
        | some a => decide (a ∈ descendants)
        | none => false) = false := by
    intro hn
    cases hs : s.active with
    | none => rfl
    | some a => simpa using hn a hs
  refine ⟨?_, ?_, ?_, ?_⟩
  · intro f hf
    rw [initialFocusStep, if_pos hf]
    rw [hf]
  · intro a hs hm
    rw [initialFocusStep, if_pos (by simp [hs, hm])]
    rw [hs]
  · intro f hf
    rw [initialFocusStep, if_neg (by simpa using fun h => hf h)]
    rfl
  · intro hn r1 s1 hq
    rw [initialFocusStep, if_neg (by simp [hinactive hn]), hq]
    refine ⟨?_, ?_⟩
    · intro hr1
      simp [hr1]
    · intro hrE
      subst hrE
      refine ⟨?_, ?_⟩
      · intro fb hfb
        subst hfb
        refine ⟨?_, ?_⟩
        · intro hok
          simp [hok]
        · intro hno
          simp [hno]
      · intro hfb
        subst hfb
        simp

/-- Witness for C4, exercising two branches at concrete inputs: with an
explicit initial-focus element configured and a different element active
inside the trap, the step focuses the explicit element; and with the
`AutoFocus` feature set on a container without auto-focus-marked (or any
focusable) descendants, the failed auto-focus query falls through directly to
the fallback element, which takes focus. -/
theorem C4_initial_focus_witness :
    initialFocusStep 0 [plainButton 21] (some (plainButton 22)) none none
      { active := some (plainButton 21) } =
      { s := tryFocus { active := some (plainButton 21) } (plainButton 22),
        warned := false,
        prev := (tryFocus { active := some (plainButton 21) } (plainButton 22)).active } ∧
    initialFocusStep FocusTrapFeatures.AutoFocus [plainSpan 23] none
      (some (plainButton 24)) none {} =
      { s := focusElement (some (plainButton 24)) {}, warned := false, prev := none } :=
  ⟨(C4_initial_focus 0 [plainButton 21] none none
      { active := some (plainButton 21) }).2.2.1 (plainButton 22) (by decide),
   ((((C4_initial_focus FocusTrapFeatures.AutoFocus [plainSpan 23] (some (plainButton 24))
        none {}).2.2.2 (fun a ha => Option.noConfusion ha) FocusResult.Error {}
        rfl).2 rfl).1 (plainButton 24) rfl).1 (by decide)⟩

/-- Counterexample to C4 as stated: the active element `plainButton 21` is
inside the trap, yet with an explicit initial-focus element configured it is
not accepted as-is — the step issues a focus call and moves focus to the
explicit element. -/
theorem C4_cex :
    (plainButton 21) ∈ [plainButton 21] ∧
    ({ active := some (plainButton 21) } : DomState).active = some (plainButton 21) ∧
    initialFocusStep 0 [plainButton 21] (some (plainButton 22)) none none
      { active := some (plainButton 21) } =
      { s := { active := some (plainButton 22), focusCalls := [22], selectCalls := [] },
        warned := false,
        prev := some (plainButton 22) } := by
  refine ⟨by decide, rfl, ?_⟩
  rfl

/-- Inserting an element into a list passes over exactly the elements with a
strictly smaller tab key, so per-key filtering sees the inserted element first. -/
theorem filter_tabKey_orderedInsert (k : Int) (a : Elem) (l : List Elem) :
    (List.orderedInsert tabLE a l).filter (fun e => tabKey e == k) =
      if tabKey a == k then a :: l.filter (fun e => tabKey e == k)
      else l.filter (fun e => tabKey e == k) := by
  induction l with
  | nil =>
    simp only [List.orderedInsert, List.filter_cons, List.filter_nil]
  | cons b t ih =>
    rw [List.orderedInsert]
    by_cases hab : tabLE a b
    · rw [if_pos hab]
      by_cases hak : (tabKey a == k) = true
      · simp [List.filter_cons, hak]
      · simp [List.filter_cons, hak]
    · rw [if_neg hab]
      have hlt : tabKey b < tabKey a := by
        have h0 := hab
        rw [tabLE] at h0
        omega
      by_cases hak : (tabKey a == k) = true
      · have hbk : (tabKey b == k) = false := by
          have hk : tabKey a = k := by simpa using hak
          simp only [beq_eq_false_iff_ne, ne_eq]
          omega
        simp [List.filter_cons, hak, hbk, ih]
      · simp [List.filter_cons, hak, ih]

/-- Insertion sort preserves, for every key value, the subsequence of elements
carrying that key: it is a stable sort with respect to `tabKey`. -/
theorem filter_tabKey_insertionSort (k : Int) (l : List Elem) :
    (List.insertionSort tabLE l).filter (fun e => tabKey e == k) =
      l.filter (fun e => tabKey e == k) := by
  induction l with
  | nil => rfl
  | cons x t ih =>
    rw [List.insertionSort, filter_tabKey_orderedInsert, List.filter]
    by_cases hxk : tabKey x == k
    · rw [if_pos hxk, ih, hxk]
    · rw [if_neg (by simpa using hxk), ih]
      rw [show (tabKey x == k) = false by simpa using hxk]

/-- C7 (amended): `getFocusableElements` returns exactly the selector-matching
descendants, sorted ascending by the comparator key `a.tabIndex || MAX_SAFE_INTEGER`
(so a zero — absent or explicit — effective tab index sorts in the trailing
group), and the sort is stable: elements with equal keys keep document order
(for each key, the filtered subsequence equals that of the document-order
input). An explicit `tabindex="0"` therefore does not sort before an absent
tab index; only nonzero tab indexes sort by value. -/
theorem C7_focusable_ordering (l : List Elem) :
    List.Sorted tabLE (getFocusableElements l) ∧
    List.Perm (getFocusableElements l) (l.filter matchesFocusableSelector) ∧
    ∀ k : Int, (getFocusableElements l).filter (fun e => tabKey e == k) =
      (l.filter matchesFocusableSelector).filter (fun e => tabKey e == k) :=
  ⟨List.sorted_insertionSort tabLE _,
   List.perm_insertionSort tabLE _,
   fun k => filter_tabKey_insertionSort k _⟩

/-- Counterexample to C7 as stated: `plainButton 1` (absent tab index, reflected
`0`) precedes `explicitZero 2` (explicit `tabindex="0"`) in document order, and
`getFocusableElements` keeps that order — the element with the explicit
non-negative tab index 0 does not sort before the absent one, contradicting the
claimed ordering (which would require the explicit-0 element first). -/
theorem C7_cex :
    getFocusableElements [plainButton 1, explicitZero 2] = [plainButton 1, explicitZero 2] ∧
    (plainButton 1).tabindexAttr = none ∧
    (explicitZero 2).tabindexAttr = some 0 ∧
    ¬ List.Sorted claimTabLE (getFocusableElements [plainButton 1, explicitZero 2]) := by
  refine ⟨rfl, rfl, rfl, ?_⟩
  intro h
  have := List.rel_of_sorted_cons h (explicitZero 2) (by decide)
  revert this
  decide

/-- Invariant of the focus loop: a `Success` exit happens only at the strict
equality `next === activeElement`, where `next` was read out of the candidate
list, so the final active element is a member of the list. -/
theorem focusLoop_success_active_mem (elements : List Elem) (focus : Nat)
    (startIndex direction : Int) :
    ∀ (fuel : Nat) (offset : Int) (s s1 : DomState),
      focusLoop elements focus startIndex direction fuel offset s =
        (FocusResult.Success, s1) →
      ∃ e ∈ elements, s1.active = some e := by
  intro fuel
  induction fuel with
  | zero =>
    intro offset s s1 h
    rw [focusLoop] at h
    exact absurd (congrArg Prod.fst h) (by simp)
  | succ n ih =>
    intro offset s s1 h
    rw [focusLoop] at h
    by_cases hg : (offset ≥ (elements.length : Int) ∨ offset + elements.length ≤ 0)
    · rw [if_pos hg] at h
      exact absurd (congrArg Prod.fst h) (by simp)
    · rw [if_neg hg] at h
      simp only at h
      split at h
      · -- idxRes resolved to an error result (Underflow/Overflow): not Success
        rename_i r heq
        have hr : r = FocusResult.Underflow ∨ r = FocusResult.Overflow := by
          by_cases hw : ((focus &&& Focus.WrapAround != 0) = true)
          · rw [if_pos hw] at heq
            exact absurd heq (by simp)
          · rw [if_neg hw] at heq
            split at heq
            · exact Or.inl (by simpa using heq.symm)
            · split at heq
              · exact Or.inr (by simpa using heq.symm)
              · exact absurd heq (by simp)
        have hfst := congrArg Prod.fst h
        rcases hr with rfl | rfl <;> exact absurd hfst (by simp)
      · -- idxRes resolved to an index
        rename_i nextIdx heq
        split at h
        · -- strict-equality exit: Success with next = active
          rename_i hsame
          cases hnext : elements[nextIdx.toNat]? with
          | none =>
            rw [hnext] at hsame
            exact absurd hsame (by simp [sameElement])
          | some e =>
            rw [hnext] at hsame h
            dsimp only at hsame h
            have hmem : e ∈ elements := by
              have hsome := List.getElem?_eq_some_iff.mp hnext
              obtain ⟨hlt, hget⟩ := hsome
              exact hget ▸ List.getElem_mem hlt
            have hact : (tryFocus s e).active = some e := by
              rcases hsame' : (tryFocus s e).active with _ | b
              · rw [hsame'] at hsame
                exact absurd hsame (by simp [sameElement])
              · rw [hsame'] at hsame
                have heb : e = b := by simpa [sameElement] using hsame
                rw [heb]
            refine ⟨e, hmem, ?_⟩
            have hs1 : s1 = finishSelect focus (some e) (tryFocus s e) := by
              have hsnd := congrArg Prod.snd h
              simpa using hsnd.symm
            rw [hs1, finishSelect_active]
            exact hact
        · exact ih _ _ _ h

/-- C8: whenever the React `focusIn` reports `Success`, the element holding
focus at return is a member of the candidate list after sorting/resolution and
skip-filtering; `Success` is never reported while focus rests outside that
list. -/
theorem C8_success_membership (c : ContainerInput) (focus : Nat) (opts : FocusOptions)
    (s s1 : DomState)
    (h : focusInReact c focus opts s = Except.ok (FocusResult.Success, s1)) :
    ∃ e ∈ applySkip opts.skipElements (resolveListReact c focus opts.sorted),
      s1.active = some e := by
  rw [focusInReact] at h
  cases hd : resolveDirection focus with
  | error msg =>
    rw [hd] at h
    exact absurd h (by simp [bind, Except.bind])
  | ok d =>
    rw [hd] at h
    cases hsi : resolveStartIndex focus
        (applySkip opts.skipElements (resolveListReact c focus opts.sorted))
        (match opts.relativeTo with | some r => some r | none => s.active) with
    | error msg =>
      rw [hsi] at h
      exact absurd h (by simp [bind, Except.bind])
    | ok v =>
      rw [hsi] at h
      simp only [bind, Except.bind, pure, Except.pure, Except.ok.injEq] at h
      exact focusLoop_success_active_mem _ focus v d _ 0 s s1 h

/-- Witness for C8: `Focus.First` on a singleton list succeeds and the focused
element is in the resolved list. -/
theorem C8_success_membership_witness :
    ∃ e ∈ applySkip ({} : FocusOptions).skipElements
      (resolveListReact (ContainerInput.list [plainButton 41]) Focus.First
        ({} : FocusOptions).sorted),
      ({ active := some (plainButton 41), focusCalls := [41], selectCalls := [] }
        : DomState).active = some e :=
  C8_success_membership (ContainerInput.list [plainButton 41]) Focus.First {} {}
    { active := some (plainButton 41), focusCalls := [41], selectCalls := [] } rfl

/-- Unfolding of the React `focusIn` when both validation steps succeed. -/
theorem focusInReact_ok_unfold (c : ContainerInput) (focus : Nat) (opts : FocusOptions)
    (s : DomState) (d v : Int)
    (hd : resolveDirection focus = Except.ok d)
    (hsi : resolveStartIndex focus
      (applySkip opts.skipElements (resolveListReact c focus opts.sorted))
      (match opts.relativeTo with | some r => some r | none => s.active) = Except.ok v) :
    focusInReact c focus opts s = Except.ok
      (focusLoop (applySkip opts.skipElements (resolveListReact c focus opts.sorted)) focus v d
        ((applySkip opts.skipElements (resolveListReact c focus opts.sorted)).length + 1) 0 s) := by
  simp [focusInReact, hd, hsi, bind, Except.bind, pure, Except.pure]

/-- In a duplicate-free list, the index of the element at position `i` is `i`. -/
theorem indexOf_get_eq {l : List Elem} (hnd : l.Nodup) (i : Nat) (hi : i < l.length) :
    l.indexOf (l.get ⟨i, hi⟩) = i := by
  rw [List.get_eq_getElem]
  exact List.indexOf_getElem hnd i hi

/-- C1: on a non-empty candidate list, a `Next` directive without `WrapAround`
whose reference point is the last element returns `Overflow`, and a `Previous`
directive whose reference point is the first element returns `Underflow` — in
both cases the document state is returned untouched: no focus call is made and
the active element is unchanged. -/
theorem C1_no_wrap_boundaries (elements : List Elem) (focus : Nat) (s : DomState)
    (hne : elements ≠ []) (hnd : elements.Nodup) :
    (focus &&& Focus.Next ≠ 0 → focus &&& Focus.First = 0 → focus &&& Focus.Previous = 0 →
      focus &&& Focus.WrapAround = 0 →
      focusInReact (ContainerInput.list elements) focus
        { sorted := false, relativeTo := some (elements.getLast hne) } s =
        Except.ok (FocusResult.Overflow, s)) ∧
    (focus &&& Focus.Previous ≠ 0 → focus &&& Focus.First = 0 →
      focus &&& Focus.WrapAround = 0 →
      focusInReact (ContainerInput.list elements) focus
        { sorted := false, relativeTo := some (elements.head hne) } s =
        Except.ok (FocusResult.Underflow, s)) := by
  have hlen : 1 ≤ elements.length := List.length_pos.mpr hne
  have helems : ∀ f : Nat, applySkip ([] : List Elem)
      (resolveListReact (ContainerInput.list elements) f false) = elements := by
    intro f
    rw [applySkip_nil, resolveListReact]
    simp
  constructor
  · intro hNext hFirst hPrev hWrap
    obtain ⟨d, hd⟩ : ∃ d, resolveDirection focus = Except.ok d := by
      rw [resolveDirection, if_pos (by simpa using and_or_ne_zero_right hNext)]
      exact ⟨_, rfl⟩
    have hlast : elements.getLast hne = elements.get ⟨elements.length - 1, by omega⟩ := by
      rw [List.get_eq_getElem]
      exact List.getLast_eq_getElem elements hne
    have hidx : elements.indexOf (elements.getLast hne) = elements.length - 1 := by
      rw [hlast]
      exact indexOf_get_eq hnd _ _
    have hmemlast : elements.getLast hne ∈ elements := List.getLast_mem hne
    have hsi : resolveStartIndex focus elements (some (elements.getLast hne)) =
        Except.ok (elements.length : Int) := by
      rw [resolveStartIndex, if_neg (by simp [hFirst]), if_neg (by simp [hPrev]),
        if_pos (by simpa using hNext)]
      rw [idxOfJS, if_pos hmemlast, hidx]
      congr 1
      omega
    have hloop : focusLoop elements focus (elements.length : Int) d
        (elements.length + 1) 0 s = (FocusResult.Overflow, s) := by
      rw [focusLoop]
      rw [if_neg (by push_neg; omega)]
      have hw : ¬((focus &&& Focus.WrapAround != 0) = true) := by simp [hWrap]
      simp only [if_neg hw]
      rw [if_neg (by omega), if_pos (by omega)]
    have h0 := focusInReact_ok_unfold (ContainerInput.list elements) focus
      { sorted := false, relativeTo := some (elements.getLast hne) } s d
      (elements.length : Int) hd (by rw [helems]; exact hsi)
    rw [h0]
    rw [show applySkip ({ sorted := false, relativeTo := some (elements.getLast hne) }
        : FocusOptions).skipElements
        (resolveListReact (ContainerInput.list elements) focus false) = elements
      from helems focus]
    rw [hloop]
  · intro hPrev hFirst hWrap
    obtain ⟨d, hd⟩ : ∃ d, resolveDirection focus = Except.ok d := by
      rw [resolveDirection]
      split_ifs with h1 h2
      · exact ⟨_, rfl⟩
      · exact ⟨_, rfl⟩
      · exact absurd (and_or_ne_zero_left hPrev) (by simpa using h2)
    have hmemhead : elements.head hne ∈ elements := List.head_mem hne
    have hidx : elements.indexOf (elements.head hne) = 0 := by
      cases elements with
      | nil => exact absurd rfl hne
      | cons a t => simp [List.indexOf_cons_self]
    have hsi : resolveStartIndex focus elements (some (elements.head hne)) =
        Except.ok (-1 : Int) := by
      rw [resolveStartIndex, if_neg (by simp [hFirst]), if_pos (by simpa using hPrev)]
      rw [idxOfJS, if_pos hmemhead, hidx]
      congr 1
    have hloop : focusLoop elements focus (-1 : Int) d
        (elements.length + 1) 0 s = (FocusResult.Underflow, s) := by
      rw [focusLoop]
      rw [if_neg (by push_neg; omega)]
      have hw : ¬((focus &&& Focus.WrapAround != 0) = true) := by simp [hWrap]
      simp only [if_neg hw]
      rw [if_pos (by omega)]
    have h0 := focusInReact_ok_unfold (ContainerInput.list elements) focus
      { sorted := false, relativeTo := some (elements.head hne) } s d
      (-1 : Int) hd (by rw [helems]; exact hsi)
    rw [h0]
    rw [show applySkip ({ sorted := false, relativeTo := some (elements.head hne) }
        : FocusOptions).skipElements
        (resolveListReact (ContainerInput.list elements) focus false) = elements
      from helems focus]
    rw [hloop]

/-- Witness for C1 on a concrete three-element list with the pure `Next` and
`Previous` directives. -/
theorem C1_no_wrap_boundaries_witness :
    focusInReact (ContainerInput.list [plainButton 1, plainButton 2, plainButton 3]) Focus.Next
      { sorted := false,
        relativeTo := some ([plainButton 1, plainButton 2, plainButton 3].getLast (by decide)) }
      {} = Except.ok (FocusResult.Overflow, {}) ∧
    focusInReact (ContainerInput.list [plainButton 1, plainButton 2, plainButton 3]) Focus.Previous
      { sorted := false,
        relativeTo := some ([plainButton 1, plainButton 2, plainButton 3].head (by decide)) }
      {} = Except.ok (FocusResult.Underflow, {}) :=
  ⟨(C1_no_wrap_boundaries [plainButton 1, plainButton 2, plainButton 3] Focus.Next {}
      (by decide) (by decide)).1 (by decide) (by decide) (by decide) (by decide),
   (C1_no_wrap_boundaries [plainButton 1, plainButton 2, plainButton 3] Focus.Previous {}
      (by decide) (by decide)).2 (by decide) (by decide) (by decide)⟩

/-- One wrap-around `Next` move from index `i` on a fully focusable,
duplicate-free list: the first candidate `(i + 1) mod length` takes focus and
the loop exits with `Success` immediately. -/
theorem wrap_next_step (elements : List Elem) (focus : Nat)
    (hnd : elements.Nodup) (hcf : ∀ e ∈ elements, e.canFocus = true)
    (hNext : focus &&& Focus.Next ≠ 0) (hFirst : focus &&& Focus.First = 0)
    (hPrev : focus &&& Focus.Previous = 0) (hWrap : focus &&& Focus.WrapAround ≠ 0)
    (s : DomState) (i : Nat) (hi : i < elements.length)
    (hs : s.active = some (elements.get ⟨i, hi⟩)) :
    ∃ s1, focusInReact (ContainerInput.list elements) focus { sorted := false } s =
        Except.ok (FocusResult.Success, s1) ∧
      s1.active = some (elements.get ⟨(i + 1) % elements.length,
        Nat.mod_lt _ (Nat.lt_of_le_of_lt (Nat.zero_le i) hi)⟩) := by
  have hlen : 0 < elements.length := Nat.lt_of_le_of_lt (Nat.zero_le i) hi
  have hjlt : (i + 1) % elements.length < elements.length := Nat.mod_lt _ hlen
  have hd : resolveDirection focus = Except.ok 1 := by
    rw [resolveDirection, if_pos (by simpa using and_or_ne_zero_right hNext)]
  have hmemi : elements.get ⟨i, hi⟩ ∈ elements := List.get_mem elements _ _
  have hsi : resolveStartIndex focus elements (some (elements.get ⟨i, hi⟩)) =
      Except.ok ((i : Int) + 1) := by
    rw [resolveStartIndex, if_neg (by simp [hFirst]), if_neg (by simp [hPrev]),
      if_pos (by simpa using hNext)]
    rw [idxOfJS, if_pos hmemi, indexOf_get_eq hnd i hi]
    have hmax : max (0 : Int) ((i : Int)) = ((i : Int)) := by omega
    rw [hmax]
  have hwb : ((focus &&& Focus.WrapAround != 0) = true) := by simpa using hWrap
  have hmemj : elements.get ⟨(i + 1) % elements.length, hjlt⟩ ∈ elements :=
    List.get_mem elements _ _
  have hcfj : (elements.get ⟨(i + 1) % elements.length, hjlt⟩).canFocus = true :=
    hcf _ hmemj
  have hfocus : (tryFocus s (elements.get ⟨(i + 1) % elements.length, hjlt⟩)).active =
      some (elements.get ⟨(i + 1) % elements.length, hjlt⟩) := by
    simp only [tryFocus, hcfj, if_true]
  have hloop : focusLoop elements focus ((i : Int) + 1) 1 (elements.length + 1) 0 s =
      (FocusResult.Success,
        finishSelect focus (some (elements.get ⟨(i + 1) % elements.length, hjlt⟩))
          (tryFocus s (elements.get ⟨(i + 1) % elements.length, hjlt⟩))) := by
    rw [focusLoop]
    rw [if_neg (by push_neg; omega)]
    simp only [if_pos hwb]
    have hcast : ((i : Int) + 1 + 0 + (elements.length : Int)) =
        ((i + 1 + elements.length : Nat) : Int) := by
      push_cast
      ring
    rw [hcast, ← Int.ofNat_tmod, Nat.add_mod_right, Int.toNat_ofNat]
    rw [show elements[(i + 1) % elements.length]? =
        some (elements.get ⟨(i + 1) % elements.length, hjlt⟩) from by
      rw [List.get_eq_getElem]
      exact List.getElem?_eq_getElem hjlt]
    dsimp only
    rw [if_pos (by rw [hfocus]; simp [sameElement])]
  refine ⟨finishSelect focus (some (elements.get ⟨(i + 1) % elements.length, hjlt⟩))
      (tryFocus s (elements.get ⟨(i + 1) % elements.length, hjlt⟩)), ?_, ?_⟩
  · have helems : applySkip ({ sorted := false } : FocusOptions).skipElements
        (resolveListReact (ContainerInput.list elements) focus false) = elements := by
      rw [applySkip_nil, resolveListReact]
      simp
    have h0 := focusInReact_ok_unfold (ContainerInput.list elements) focus
      { sorted := false } s 1 ((i : Int) + 1) hd
      (by rw [helems]; simpa [hs] using hsi)
    rw [h0, helems, hloop]
  · rw [finishSelect_active]
    exact hfocus

/-- Iterating the wrap-around `Next` move `k` times advances the active element
from index `i` to index `(i + k) mod length`. -/
theorem moveNext_iterate (elements : List Elem) (focus : Nat)
    (hnd : elements.Nodup) (hcf : ∀ e ∈ elements, e.canFocus = true)
    (hNext : focus &&& Focus.Next ≠ 0) (hFirst : focus &&& Focus.First = 0)
    (hPrev : focus &&& Focus.Previous = 0) (hWrap : focus &&& Focus.WrapAround ≠ 0) :
    ∀ (k : Nat) (s : DomState) (i : Nat) (hi : i < elements.length),
      s.active = some (elements.get ⟨i, hi⟩) →
      ((moveNext elements focus)^[k] s).active =
        some (elements.get ⟨(i + k) % elements.length,
          Nat.mod_lt _ (Nat.lt_of_le_of_lt (Nat.zero_le i) hi)⟩) := by
  intro k
  induction k with
  | zero =>
    intro s i hi hs
    simp only [Function.iterate_zero, id_eq]
    rw [hs]
    have hik : i = (i + 0) % elements.length := by
      rw [Nat.add_zero, Nat.mod_eq_of_lt hi]
    exact congrArg some (congrArg elements.get (Fin.mk_eq_mk.mpr hik))
  | succ k ih =>
    intro s i hi hs
    have hlen : 0 < elements.length := Nat.lt_of_le_of_lt (Nat.zero_le i) hi
    rw [Function.iterate_succ_apply]
    obtain ⟨s1, hstep, hact⟩ :=
      wrap_next_step elements focus hnd hcf hNext hFirst hPrev hWrap s i hi hs
    have hmv : moveNext elements focus s = s1 := by
      rw [moveNext, hstep]
    rw [hmv]
    rw [ih s1 ((i + 1) % elements.length) (Nat.mod_lt _ hlen) hact]
    have hix : ((i + 1) % elements.length + k) % elements.length =
        (i + (k + 1)) % elements.length := by
      rw [Nat.mod_add_mod]
      congr 1
      omega
    exact congrArg some (congrArg elements.get (Fin.mk_eq_mk.mpr hix))

/-- C3: on a non-empty, duplicate-free candidate list in which every focus
attempt succeeds, a `Next` directive with `WrapAround` starting at any index
returns `Success` (never `Error`, `Overflow` or `Underflow`) and moves focus to
the next index modulo the length; iterating the move `length`-many times brings
focus back to the starting element. -/
theorem C3_wrap_cycle (elements : List Elem) (focus : Nat) (s : DomState)
    (hnd : elements.Nodup) (hcf : ∀ e ∈ elements, e.canFocus = true)
    (hNext : focus &&& Focus.Next ≠ 0) (hFirst : focus &&& Focus.First = 0)
    (hPrev : focus &&& Focus.Previous = 0) (hWrap : focus &&& Focus.WrapAround ≠ 0)
    (i : Nat) (hi : i < elements.length)
    (hs : s.active = some (elements.get ⟨i, hi⟩)) :
    (∃ s1, focusInReact (ContainerInput.list elements) focus { sorted := false } s =
        Except.ok (FocusResult.Success, s1) ∧
      s1.active = some (elements.get ⟨(i + 1) % elements.length,
        Nat.mod_lt _ (Nat.lt_of_le_of_lt (Nat.zero_le i) hi)⟩)) ∧
    ((moveNext elements focus)^[elements.length] s).active = s.active := by
  constructor
  · exact wrap_next_step elements focus hnd hcf hNext hFirst hPrev hWrap s i hi hs
  · rw [moveNext_iterate elements focus hnd hcf hNext hFirst hPrev hWrap
      elements.length s i hi hs]
    rw [hs]
    have hix : (i + elements.length) % elements.length = i := by
      rw [Nat.add_mod_right, Nat.mod_eq_of_lt hi]
    exact congrArg some (congrArg elements.get (Fin.mk_eq_mk.mpr hix))

/-- Witness for C3 on a concrete two-element list with
`Focus.Next ||| Focus.WrapAround`. -/
theorem C3_wrap_cycle_witness :
    (∃ s1, focusInReact (ContainerInput.list [plainButton 1, plainButton 2])
        (Focus.Next ||| Focus.WrapAround) { sorted := false }
        { active := some (plainButton 1) } =
        Except.ok (FocusResult.Success, s1) ∧
      s1.active = some ([plainButton 1, plainButton 2].get ⟨(0 + 1) % 2, by decide⟩)) ∧
    ((moveNext [plainButton 1, plainButton 2] (Focus.Next ||| Focus.WrapAround))^[2]
      { active := some (plainButton 1) }).active =
      ({ active := some (plainButton 1) } : DomState).active :=
  C3_wrap_cycle [plainButton 1, plainButton 2] (Focus.Next ||| Focus.WrapAround)
    { active := some (plainButton 1) } (by decide) (by decide) (by decide) (by decide)
    (by decide) (by decide) 0 (by decide) rfl

/-- Witness for C2 at a concrete two-entry scope. -/
theorem C2_top_layer_witness :
    (isTopLayer true 2 [1, 2] = true ↔ [1, 2].getLast? = some 2) ∧
    isTopLayer true 1 (removeId [1, 2] 2) = true ∧
    isTopLayer false 9 [1, 2] = false ∧
    isTopLayer true 3 [1, 2] = true :=
  ⟨C2_top_layer.1 [1, 2] 2 (by decide) (by decide),
   C2_top_layer.2.2.1 [] 1 2 (by decide),
   C2_top_layer.2.2.2.1 [1, 2] 9,
   C2_top_layer.2.2.2.2 [1, 2] 3 (by decide)⟩

end HeadlessUI
